import Mathlib

/-!
Shallow embedding of the `local-echo` line-editing engine
(`src/lib/utils.ts`, `src/lib/LocalEchoController.ts`,
`src/unnamed/part_000` = the HistoryController).

JavaScript strings are modelled as `List Char` (`Str`).  JS `substr`,
`slice`, `startsWith`, `endsWith` become `List.take` / `List.drop` /
`List.isPrefixOf` / `List.isSuffixOf`; Nat subtraction models the
index clamping JS performs.  Terminal writes and promise resolutions
are recorded as an explicit event list.
-/

/-- JavaScript strings, modelled as lists of characters. -/
abbrev Str := List Char

/-- Coerce a Lean string literal to the `Str` model. -/
def str (s : String) : Str := s.data

/-- The ASCII whitespace characters stripped by JS `String.prototype.trim`
(the embedding restricts to the ASCII range actually occurring here). -/
def isJsWs (c : Char) : Bool :=
  c = ' ' || c = '\t' || c = '\n' || c = '\r' || c = '\x0b' || c = '\x0c'

/-- JS `input.trim()`: strip leading and trailing whitespace. -/
def jsTrim (l : Str) : Str :=
  ((l.dropWhile isJsWs).reverse.dropWhile isJsWs).reverse

/-- One step of the column/row walk of `offsetToColRow` (utils.ts:42-65):
`\n` resets the column and advances the row; any other character advances
the column, wrapping to a fresh row once the column exceeds `maxCols`. -/
def otcrStep (maxCols : Nat) (rc : Nat × Nat) (chr : Char) : Nat × Nat :=
  if chr = '\n' then (rc.1 + 1, 0)
  else if maxCols < rc.2 + 1 then (rc.1 + 1, 0)
  else (rc.1, rc.2 + 1)

/-- `offsetToColRow(input, offset, maxCols)` (utils.ts:42-65), returned as
`(row, col)`: walk the first `offset` characters of `input`. -/
def offsetToColRow (input : Str) (offset maxCols : Nat) : Nat × Nat :=
  (input.take offset).foldl (otcrStep maxCols) (0, 0)

/-- `countLines(input, maxCols)` (utils.ts:70-72). -/
def countLines (input : Str) (maxCols : Nat) : Nat :=
  (offsetToColRow input input.length maxCols).1 + 1

/-- The last element of JS `input.split(/(\|\||\||&&)/g)`: the text after
the final `||` / `|` / `&&` separator (utils.ts:90-95).  The regex
alternation prefers `||` over `|` at the same position, as the match
order here does. -/
def lastSegAux (acc : Str) : Str → Str
  | [] => acc.reverse
  | '|' :: '|' :: cs => lastSegAux [] cs
  | '|' :: cs => lastSegAux [] cs
  | '&' :: '&' :: cs => lastSegAux [] cs
  | c :: cs => lastSegAux (c :: acc) cs

/-- See `lastSegAux`. -/
def lastSegment (l : Str) : Str := lastSegAux [] l

/-- `isIncompleteInput(input)` (utils.ts:77-100), with the source's
early-return cascade. -/
def isIncompleteInput (input : Str) : Bool :=
  if jsTrim input = [] then false
  else if input.count '\'' % 2 ≠ 0 then true
  else if input.count '"' % 2 ≠ 0 then true
  else if jsTrim (lastSegment input) = [] then true
  else ['\\'].isSuffixOf input && !(['\\', '\\'].isSuffixOf input)

/-- Space or tab, the `[ \t]` class of the trailing-whitespace regex. -/
def isSpTab (c : Char) : Bool := c = ' ' || c = '\t'

/-- Line terminators before which `$` matches under the JS `m` flag. -/
def isLineEnd (c : Char) : Bool :=
  c = '\n' || c = '\r' || c = '\u2028' || c = '\u2029'

/-- Whether the position right after the scanned pair is a line end
(end of string, or a line-terminator character follows). -/
def atLineEnd : Str → Bool
  | [] => true
  | c :: _ => isLineEnd c

/-- `hasTailingWhitespace(input)` (utils.ts:105-107): the regex
`/[^\\][ \t]$/m` — a non-backslash character followed by a space or tab
at the end of ANY line (the `m` flag anchors `$` at every line end). -/
def hasTailingWhitespace : Str → Bool
  | a :: b :: rest =>
      (decide (a ≠ '\\') && isSpTab b && atLineEnd rest) ||
        hasTailingWhitespace (b :: rest)
  | _ => false

/-- Outcome of the candidate scan inside `getSharedFragment`
(utils.ts:167-172): abort with `null`, stop returning the old fragment,
or pass all candidates. -/
inductive ScanResult where
  | null : ScanResult
  | stopOld : ScanResult
  | pass : ScanResult
deriving DecidableEq

/-- The `for` loop of `getSharedFragment` (utils.ts:167-172): first
candidate not starting with `oldFragment` aborts with `null`; first
candidate not starting with the extended `fragment` returns the old one. -/
def scanCands (old frag : Str) : List Str → ScanResult
  | [] => .pass
  | c :: cs =>
      if !(old.isPrefixOf c) then .null
      else if !(frag.isPrefixOf c) then .stopOld
      else scanCands old frag cs

/-- Recursion core of `getSharedFragment`.  The counter `k` equals
`candidates[0].length - fragment.length`, so `k = 0` is exactly the
source's base case `fragment.length >= candidates[0].length`; each pass
extends the fragment by one character of `candidates[0]`
(utils.ts:158-175). -/
def gsfAux (c0 : Str) (candidates : List Str) : Nat → Str → Option Str
  | 0, fragment => some fragment
  | k + 1, fragment =>
      let frag2 := fragment ++ (c0.drop fragment.length).take 1
      match scanCands fragment frag2 candidates with
      | .null => none
      | .stopOld => some fragment
      | .pass => gsfAux c0 candidates k frag2

/-- `getSharedFragment(fragment, candidates)` (utils.ts:158-175).
`none` models the JS `null` return.  An empty candidate list throws a
`TypeError` in the source (reading `candidates[0].length` of
`undefined`); the spec (§7) makes nonemptiness a precondition, and the
engine only calls this with at least two candidates, so the `[]` case
is unreachable and mapped to `none`. -/
def getSharedFragment (fragment : Str) (candidates : List Str) : Option Str :=
  match candidates with
  | [] => none
  | c0 :: _ => gsfAux c0 candidates (c0.length - fragment.length) fragment

/-- JS `\w` (= `[A-Za-z0-9_]`), used by `wordBoundaries` (utils.ts:12). -/
def isWordChar (c : Char) : Bool := c.isAlphanum || c = '_'

/-- Maximal runs of word characters as `(start, end)` index pairs;
`i` is the index of the head of the remaining list, `start` the start of
the run currently being scanned, if any (utils.ts:6-19). -/
def wordRunsAux (i : Nat) (start : Option Nat) : Str → List (Nat × Nat)
  | [] =>
      match start with
      | some s => [(s, i)]
      | none => []
  | c :: cs =>
      if isWordChar c then
        wordRunsAux (i + 1) (some (start.getD i)) cs
      else
        match start with
        | some s => (s, i) :: wordRunsAux (i + 1) none cs
        | none => wordRunsAux (i + 1) none cs

/-- `wordBoundaries(input, leftSide)` (utils.ts:6-19). -/
def wordBoundaries (input : Str) (leftSide : Bool) : List Nat :=
  (wordRunsAux 0 none input).map (fun r => if leftSide then r.1 else r.2)

/-- `closestLeftBoundary(input, offset)` (utils.ts:24-29). -/
def closestLeftBoundary (input : Str) (offset : Nat) : Nat :=
  (((wordBoundaries input true).reverse).find? (fun x => x < offset)).getD 0

/-- `closestRightBoundary(input, offset)` (utils.ts:34-37). -/
def closestRightBoundary (input : Str) (offset : Nat) : Nat :=
  ((wordBoundaries input false).find? (fun x => offset < x)).getD input.length

/-- `getLastToken(input)` (utils.ts:112-119), parametrised by the
shell tokenizer `tok` (the external `shell-quote` `parse` import). -/
def getLastToken (tok : Str → List Str) (input : Str) : Str :=
  if jsTrim input = [] || hasTailingWhitespace input then []
  else ((tok input).getLast?).getD []

/-- `collectAutocompleteCandidates(callbacks, input)` (utils.ts:124-153),
parametrised by the shell tokenizer.  A handler is `Int → List Str →
Option (List Str)`; `none` models a thrown exception, which the source
catches, logs to the console (not the terminal) and skips.  The index is
an `Int` because JS computes `tokens.length - 1`, which is `-1` on an
empty token list. -/
def collectAutocompleteCandidates
    (tok : Str → List Str)
    (callbacks : List (Int → List Str → Option (List Str)))
    (input : Str) : List Str :=
  let tokens := tok input
  let index : Int := (tokens.length : Int) - 1
  let expr := (tokens.getLast?).getD []
  let ie : Int × Str :=
    if jsTrim input = [] then (0, [])
    else if hasTailingWhitespace input then (index + 1, [])
    else (index, expr)
  let collected := callbacks.foldl
    (fun acc cb =>
      match cb ie.1 tokens with
      | some r => acc ++ r
      | none => acc) []
  collected.filter (fun t => ie.2.isPrefixOf t)

/-! ### HistoryController (`src/unnamed/part_000`) -/

/-- The `HistoryController` state: capacity, stored entries and the
browsing cursor. -/
structure HistoryState where
  size : Nat
  entries : List Str
  cursor : Nat
deriving DecidableEq

/-- `HistoryController.push(entry)` (part_000:18-32): skip blank and
consecutive-duplicate entries, append, shift the oldest entry out when
the capacity is exceeded, and snap the cursor past the end. -/
def historyPush (h : HistoryState) (entry : Str) : HistoryState :=
  if jsTrim entry = [] then h
  else if h.entries.getLast? = some entry then h
  else
    let es := h.entries ++ [entry]
    let es := if h.size < es.length then es.drop 1 else es
    { h with entries := es, cursor := es.length }

/-- `HistoryController.rewind()` (part_000:37-39). -/
def historyRewind (h : HistoryState) : HistoryState :=
  { h with cursor := h.entries.length }

/-- `HistoryController.getPrevious()` (part_000:44-48): move the cursor
to `max 0 (cursor - 1)` and return the entry there (Nat subtraction
models the `Math.max(0, ...)` clamp). -/
def historyGetPrevious (h : HistoryState) : Option Str × HistoryState :=
  let idx := h.cursor - 1
  (h.entries.get? idx, { h with cursor := idx })

/-- `HistoryController.getNext()` (part_000:53-57): move the cursor to
`min length (cursor + 1)` and return the entry there (`none` models the
`undefined` read past the end). -/
def historyGetNext (h : HistoryState) : Option Str × HistoryState :=
  let idx := min h.entries.length (h.cursor + 1)
  (h.entries.get? idx, { h with cursor := idx })

/-! ### LocalEchoController (`src/lib/LocalEchoController.ts`)

The engine state carries the fields the event handlers read and write.
Terminal writes (`term.write`) and promise resolutions are recorded as
events.  Functions that can run the `printWide` loop return `Option`:
`none` marks the run in which that loop never terminates (see
`printWideLines`). -/

/-- Observable effects of the engine: a `term.write`, resolving the
pending line read (`ActivePrompt.resolve`), or resolving the pending
single-char read (`ActiveCharPrompt.resolve`). -/
inductive Event where
  | write (s : Str)
  | resolveLine (s : Str)
  | resolveChar (s : Str)
deriving DecidableEq

/-- The mutable fields of `LocalEchoController` used by the handlers:
`_active`, `_input`, `_cursor`, the history controller,
`maxAutocompleteEntries`, `_autocompleteHandlers`, `_activePrompt`
(prompt and continuation prompt), `_activeCharPrompt` (its prompt), and
the cached `_termSize.cols`. -/
structure EngineState where
  active : Bool
  input : Str
  cursor : Nat
  history : HistoryState
  maxAutocompleteEntries : Nat
  handlers : List (Int → List Str → Option (List Str))
  activePrompt : Option (Str × Str)
  activeCharPrompt : Option Str
  termCols : Nat

/-- `n` copies of the same `term.write` call (the `for` loops that emit
one escape sequence per iteration). -/
def repeatW (s : Str) (n : Nat) : List Event :=
  List.replicate n (.write s)

/-- Run-collapsing core of the regexes `/[\r\n]+/g → "\n"` (print,
LocalEchoController.ts:230) and `/[\r\n]+/g → "\r"` (paste handling,
LocalEchoController.ts:548): every maximal run of `\r`/`\n` becomes one
copy of `out`. -/
def collapseRunsAux (out : Char) (prevNl : Bool) : Str → Str
  | [] => []
  | c :: cs =>
      if c = '\r' || c = '\n' then
        if prevNl then collapseRunsAux out true cs
        else out :: collapseRunsAux out true cs
      else c :: collapseRunsAux out false cs

/-- See `collapseRunsAux`. -/
def collapseRuns (out : Char) (l : Str) : Str := collapseRunsAux out false l

/-- The string actually written by `print(message)`
(LocalEchoController.ts:229-232): newline runs collapsed to `\n`, then
every `\n` written as `\r\n`. -/
def printMsg (message : Str) : Str :=
  (collapseRuns '\n' message).flatMap (fun c => if c = '\n' then ['\r', '\n'] else [c])

/-- `println(message)` = `print(message + "\n")`
(LocalEchoController.ts:222-224). -/
def printlnMsg (message : Str) : Str := printMsg (message ++ ['\n'])

/-- `applyPrompts(input)` (LocalEchoController.ts:271-277): prefix the
prompt and render every embedded newline as newline + continuation
prompt. -/
def applyPrompts (st : EngineState) (input : Str) : Str :=
  let prompt := ((st.activePrompt.map Prod.fst)).getD []
  let contPrompt := ((st.activePrompt.map Prod.snd)).getD []
  prompt ++ input.flatMap (fun c => if c = '\n' then '\n' :: contPrompt else [c])

/-- `applyPromptOffset(input, offset)` (LocalEchoController.ts:283-286). -/
def applyPromptOffset (st : EngineState) (input : Str) (offset : Nat) : Nat :=
  (applyPrompts st (input.take offset)).length

/-- The writes of `clearInput()` (LocalEchoController.ts:294-319): move
to the last displayed row, clear it, then clear the rows above. -/
def clearInputWrites (st : EngineState) : List Event :=
  let currentPrompt := applyPrompts st st.input
  let allRows := countLines currentPrompt st.termCols
  let promptCursor := applyPromptOffset st st.input st.cursor
  let rc := offsetToColRow currentPrompt promptCursor st.termCols
  let moveRows := allRows - rc.1 - 1
  repeatW (str "\x1B[E") moveRows ++ [.write (str "\r\x1B[K")] ++
    repeatW (str "\x1B[F\x1B[K") (allRows - 1)

/-- `setInput(newInput, clearInput)` (LocalEchoController.ts:327-358):
optionally erase the old display, print the freshly prompted input,
clamp the cursor to the new input, and walk the physical cursor into
place. -/
def setInputFn (st : EngineState) (newInput : Str) (clear : Bool) :
    EngineState × List Event :=
  let ev1 := if clear then clearInputWrites st else []
  let newPrompt := applyPrompts st newInput
  let ev2 := [Event.write (printMsg newPrompt)]
  let cursor := if newInput.length < st.cursor then newInput.length else st.cursor
  let newCursor := applyPromptOffset st newInput cursor
  let newLines := countLines newPrompt st.termCols
  let rc := offsetToColRow newPrompt newCursor st.termCols
  let moveUpRows := newLines - rc.1 - 1
  let ev3 := [Event.write (str "\r")] ++ repeatW (str "\x1B[F") moveUpRows ++
    repeatW (str "\x1B[C") rc.2
  ({ st with input := newInput, cursor := cursor }, ev1 ++ ev2 ++ ev3)

/-- `setCursor(newCursor)` (LocalEchoController.ts:393-442): clamp, then
emit the relative vertical and horizontal movement from the old physical
position to the new one.  The lower clamp of the source is implicit in
the `Nat` argument. -/
def setCursorFn (st : EngineState) (newCursor : Nat) :
    EngineState × List Event :=
  let nc := if st.input.length < newCursor then st.input.length else newCursor
  let inputWithPrompt := applyPrompts st st.input
  let prevOff := applyPromptOffset st st.input st.cursor
  let prev := offsetToColRow inputWithPrompt prevOff st.termCols
  let newOff := applyPromptOffset st st.input nc
  let new := offsetToColRow inputWithPrompt newOff st.termCols
  let vert := if prev.1 < new.1 then repeatW (str "\x1B[B") (new.1 - prev.1)
    else repeatW (str "\x1B[A") (prev.1 - new.1)
  let horiz := if prev.2 < new.2 then repeatW (str "\x1B[C") (new.2 - prev.2)
    else repeatW (str "\x1B[D") (prev.2 - new.2)
  ({ st with cursor := nc }, vert ++ horiz)

/-- `handleCursorMove(dir)` (LocalEchoController.ts:447-455). -/
def handleCursorMove (st : EngineState) (dir : Int) :
    EngineState × List Event :=
  if 0 < dir then
    let num := min dir ((st.input.length : Int) - st.cursor)
    setCursorFn st ((st.cursor : Int) + num).toNat
  else if dir < 0 then
    let num := max dir (-(st.cursor : Int))
    setCursorFn st ((st.cursor : Int) + num).toNat
  else (st, [])

/-- `handleCursorErase(backspace)` (LocalEchoController.ts:460-474). -/
def handleCursorErase (st : EngineState) (backspace : Bool) :
    EngineState × List Event :=
  if backspace then
    if st.cursor = 0 then (st, [])
    else
      let newInput := st.input.take (st.cursor - 1) ++ st.input.drop st.cursor
      let ev1 := clearInputWrites st
      let st1 := { st with cursor := st.cursor - 1 }
      let r := setInputFn st1 newInput false
      (r.1, ev1 ++ r.2)
  else
    let newInput := st.input.take st.cursor ++ st.input.drop (st.cursor + 1)
    setInputFn st newInput true

/-- `handleCursorInsert(data)` (LocalEchoController.ts:479-485): splice
`data` in at the cursor, advance the cursor, redraw. -/
def handleCursorInsert (st : EngineState) (data : Str) :
    EngineState × List Event :=
  let newInput := st.input.take st.cursor ++ data ++ st.input.drop st.cursor
  let st1 := { st with cursor := st.cursor + data.length }
  setInputFn st1 newInput true

/-- `handleReadComplete()` (LocalEchoController.ts:506-516): push the
line into history, resolve the pending line read, line-break, go
inactive. -/
def handleReadComplete (st : EngineState) : EngineState × List Event :=
  let h := historyPush st.history st.input
  let evR := match st.activePrompt with
    | some _ => [Event.resolveLine st.input]
    | none => []
  ({ st with history := h, activePrompt := none, active := false },
    evR ++ [.write (str "\r\n")])

/-- Row-major grid rows of `printWide`'s matrix loop
(LocalEchoController.ts:248-261): each row takes the next `c + 1`
(= `wideCols`) padded items.  `fuel` bounds the recursion; every row
consumes at least one item, so `fuel = items.length` never runs out. -/
def gridRowsAux (c : Nat) : Nat → List Str → List Str
  | 0, _ => []
  | _, [] => []
  | fuel + 1, x :: xs => (x :: xs.take c).flatten :: gridRowsAux c fuel (xs.drop c)

/-- The row strings printed by `printWide(items, padding)`
(LocalEchoController.ts:237-262).  `none` models the run that never
terminates: with `0 < itemWidth ≤` nothing (i.e. `wideCols = 0`,
a cached terminal width narrower than one column), the source computes
`wideRows = Math.ceil(items.length / 0) = Infinity` and the row loop
`for (row = 0; row < Infinity; ...)` never exits, printing blank lines
forever.  (With `itemWidth = 0` the source gets `wideCols = Infinity`
and `wideRows = 0`, printing nothing.) -/
def printWideLines (items : List Str) (padding cols : Nat) : Option (List Str) :=
  if items.length = 0 then some [[]]
  else
    let itemWidth := items.foldl (fun w item => max w item.length) 0 + padding
    if itemWidth = 0 then some []
    else
      let wideCols := cols / itemWidth
      if wideCols = 0 then none
      else
        let padded := items.map (fun item => item ++ List.replicate (itemWidth - item.length) ' ')
        some (gridRowsAux (wideCols - 1) items.length padded)

/-- The `term.write` events of `printWide`: one `println` per grid row. -/
def printWideEvents (items : List Str) (padding cols : Nat) : Option (List Event) :=
  (printWideLines items padding cols).map (List.map (fun r => Event.write (printlnMsg r)))

/-- `printAndRestartPrompt(callback)` for a callback that finishes
synchronously (LocalEchoController.ts:364-385, the `ret == null`
branch): save the cursor, complete the line, line-break, run the
callback, then resume by restoring the cursor and redrawing the input. -/
def printAndRestartPromptSync (st : EngineState)
    (cb : EngineState → Option (EngineState × List Event)) :
    Option (EngineState × List Event) :=
  let cursor := st.cursor
  let r1 := setCursorFn st st.input.length
  let ev2 := [Event.write (str "\r\n")]
  (cb r1.1).map fun r2 =>
    let st3 := { r2.1 with cursor := cursor }
    let r3 := setInputFn st3 st3.input true
    (r3.1, r1.2 ++ ev2 ++ r2.2 ++ r3.2)

/-- Lexicographic `≤` on strings by code point, the default comparator
semantics of JS `Array.prototype.sort` on strings. -/
def lexLe : Str → Str → Bool
  | [], _ => true
  | _ :: _, [] => false
  | a :: as, b :: bs => if a < b then true else if b < a then false else lexLe as bs

/-- Insertion step of `sortStrs`. -/
def insertSorted (x : Str) : List Str → List Str
  | [] => [x]
  | y :: ys => if lexLe x y then x :: y :: ys else y :: insertSorted x ys

/-- `candidates.sort()` (LocalEchoController.ts:656): lexicographically
sorted copy.  Ties are equal strings, so any sorting algorithm produces
the same list as the source's in-place sort. -/
def sortStrs : List Str → List Str
  | [] => []
  | x :: xs => insertSorted x (sortStrs xs)

/-- Decimal rendering of a Nat, for the template literal
`Display all ${candidates.length} possibilities? (y or n)`. -/
def natToStr (n : Nat) : Str := Nat.toDigits 10 n

/-- The TAB branch of `handleData` (LocalEchoController.ts:642-710),
parametrised by the shell tokenizer.  Dispatch on the number of sorted
candidates: none → insert a space unless one already trails; one → full
completion plus a space; at most `maxAutocompleteEntries` → insert the
shared fragment beyond the last token if it is truthy (non-null and
non-empty), then print the candidate list wide and restart the prompt;
more → synchronously start the `readChar` confirmation (write the
question, install the char prompt); the resume and the `.then`
continuation of that branch run only after the answer arrives and are
outside this synchronous step. -/
def handleTab (tok : Str → List Str) (st : EngineState) :
    Option (EngineState × List Event) :=
  if 0 < st.handlers.length then
    let inputFragment := st.input.take st.cursor
    let hasTailingSpace := hasTailingWhitespace inputFragment
    let candidates := sortStrs (collectAutocompleteCandidates tok st.handlers inputFragment)
    if candidates.length = 0 then
      if hasTailingSpace then some (st, [])
      else some (handleCursorInsert st [' '])
    else if candidates.length = 1 then
      let lastToken := getLastToken tok inputFragment
      some (handleCursorInsert st (((candidates.head?).getD []).drop lastToken.length ++ [' ']))
    else if candidates.length ≤ st.maxAutocompleteEntries then
      let sharedFragment := getSharedFragment inputFragment candidates
      let ins : EngineState × List Event :=
        match sharedFragment with
        | some s =>
            if s = [] then (st, [])
            else
              let lastToken := getLastToken tok inputFragment
              handleCursorInsert st (s.drop lastToken.length)
        | none => (st, [])
      (printAndRestartPromptSync ins.1 (fun st2 =>
        (printWideEvents candidates 2 st2.termCols).map (fun evs => (st2, evs)))).map
        (fun r => (r.1, ins.2 ++ r.2))
    else
      let question := str "Display all " ++ natToStr candidates.length ++
        str " possibilities? (y or n)"
      let r1 := setCursorFn st st.input.length
      some ({ r1.1 with activeCharPrompt := some question },
        r1.2 ++ [.write (str "\r\n"), .write question])
  else some (handleCursorInsert st (str "    "))

/-- `handleData(data)` (LocalEchoController.ts:558-729): dispatch one
chunk — escape sequences, control characters, or a printable insert.
`none` only arises from a TAB completion whose `printWide` loop never
terminates. -/
def handleData (tok : Str → List Str) (st : EngineState) (data : Str) :
    Option (EngineState × List Event) :=
  if !st.active then some (st, [])
  else
    let ord := (data.head?).map Char.toNat
    if ord = some 0x1b then
      let rest := data.drop 1
      if rest = str "[A" then
        let r := historyGetPrevious st.history
        let st1 := { st with history := r.2 }
        match r.1 with
        | some value =>
            if value = [] then some (st1, [])
            else
              let r1 := setInputFn st1 value true
              let r2 := setCursorFn r1.1 value.length
              some (r2.1, r1.2 ++ r2.2)
        | none => some (st1, [])
      else if rest = str "[B" then
        let r := historyGetNext st.history
        let st1 := { st with history := r.2 }
        let value := (r.1).getD []
        let r1 := setInputFn st1 value true
        let r2 := setCursorFn r1.1 value.length
        some (r2.1, r1.2 ++ r2.2)
      else if rest = str "[D" then some (handleCursorMove st (-1))
      else if rest = str "[C" then some (handleCursorMove st 1)
      else if rest = str "[3~" then some (handleCursorErase st false)
      else if rest = str "[F" then some (setCursorFn st st.input.length)
      else if rest = str "[H" then some (setCursorFn st 0)
      else if rest = str "b" then
        some (setCursorFn st (closestLeftBoundary st.input st.cursor))
      else if rest = str "f" then
        some (setCursorFn st (closestRightBoundary st.input st.cursor))
      else if rest = str "\x7F" then
        let ofs := closestLeftBoundary st.input st.cursor
        let r1 := setInputFn st (st.input.take ofs ++ st.input.drop st.cursor) true
        let r2 := setCursorFn r1.1 ofs
        some (r2.1, r1.2 ++ r2.2)
      else some (st, [])
    else if (match ord with
        | some o => decide (o < 32) || decide (o = 0x7f)
        | none => false) then
      if data = str "\r" then
        if isIncompleteInput st.input then some (handleCursorInsert st ['\n'])
        else some (handleReadComplete st)
      else if data = str "\x7F" then some (handleCursorErase st true)
      else if data = str "\t" then handleTab tok st
      else if data = str "\x03" then
        let r1 := setCursorFn st st.input.length
        let prompt := ((st.activePrompt.map Prod.fst)).getD []
        let st2 := { r1.1 with input := [], cursor := 0, history := historyRewind st.history }
        some (st2, r1.2 ++ [.write (str "^C\r\n" ++ prompt)])
      else some (st, [])
    else some (handleCursorInsert st data)

/-- The paste replay `Array.from(normData).forEach(c => handleData(c))`
(LocalEchoController.ts:549): run `handleData` on each character in
turn, concatenating the events. -/
def replayChars (tok : Str → List Str) (st : EngineState) :
    Str → Option (EngineState × List Event)
  | [] => some (st, [])
  | c :: cs =>
      (handleData tok st [c]).bind fun r =>
        (replayChars tok r.1 cs).map fun r2 => (r2.1, r.2 ++ r2.2)

/-- `handleTermData(data)` (LocalEchoController.ts:535-553): drop
everything while inactive; a pending char prompt intercepts and resolves
with the raw chunk before any line-editing logic; a chunk longer than 3
bytes not starting with ESC is treated as a paste and replayed one
character at a time. -/
def handleTermData (tok : Str → List Str) (st : EngineState) (data : Str) :
    Option (EngineState × List Event) :=
  if !st.active then some (st, [])
  else
    match st.activeCharPrompt with
    | some _ =>
        some ({ st with activeCharPrompt := none },
          [.resolveChar data, .write (str "\r\n")])
    | none =>
        if 3 < data.length && !((data.head?).map Char.toNat = some 0x1b) then
          replayChars tok st (collapseRuns '\r' data)
        else handleData tok st data

/-- Modelled from the spec: the `shell-quote` `parse` import
(utils.ts:1) is an external library whose code is not part of this
repository.  The spec (§4.1) describes it as "shell-tokenizes the input
(quote-aware word splitting)".  This model splits on unquoted
whitespace and strips single/double quotes; it is used only to
instantiate the tokenizer parameter `tok` in concrete witnesses. -/
def specParseAux (cur : Str) (acc : List Str) (quote : Option Char) :
    Str → List Str
  | [] => (if cur = [] then acc else cur.reverse :: acc).reverse
  | c :: cs =>
      match quote with
      | some q =>
          if c = q then specParseAux cur acc none cs
          else specParseAux (c :: cur) acc (some q) cs
      | none =>
          if c = '\'' || c = '"' then specParseAux cur acc (some c) cs
          else if isJsWs c then
            if cur = [] then specParseAux [] acc none cs
            else specParseAux [] (cur.reverse :: acc) none cs
          else specParseAux (c :: cur) acc none cs

/-- See `specParseAux`. -/
def specParse (input : Str) : List Str := specParseAux [] [] none input

/-! ### Claim theorems -/

/-- C2 counterexample: `getSharedFragment("", ["cat", "dog"])` does NOT
return the abort value `null`.  The loop reaches `"dog"`, which starts
with the old fragment `""` (so the `null` branch is not taken) but not
with the extended fragment `"c"`, so the source returns the old
fragment — the empty string, a falsy value but not `null`. -/
theorem getSharedFragment_cat_dog_not_null :
    getSharedFragment (str "") [str "cat", str "dog"] ≠ none := by
  decide

/-- C2 (amended): `getSharedFragment("", ["list", "load", "ls"])`
returns `"l"`, and `getSharedFragment("", ["cat", "dog"])` returns the
empty string `""` (falsy, but a string — not the `null` abort value). -/
theorem getSharedFragment_examples :
    getSharedFragment (str "") [str "list", str "load", str "ls"] = some (str "l") ∧
      getSharedFragment (str "") [str "cat", str "dog"] = some (str "") := by
  exact ⟨by decide, by decide⟩

/-- C6: evaluation of `printWide` at the failing input.  With
`items = ["abc"]`, `padding = 2` and a cached terminal width of `0`
(the constructor's default when no terminal is attached; any width
below the column width 5 behaves the same), the source computes
`wideCols = Math.floor(0 / 5) = 0`, hence
`wideRows = Math.ceil(1 / 0) = Infinity`, and the row loop never
terminates, printing blank lines forever — `none` in this model.  The
claim says `printWide` terminates for every items list and cached size,
with the column count treated as at least 1. -/
theorem printWide_narrow_diverges : printWideLines [str "abc"] 2 0 = none := by
  rfl

/-- C10: while the engine is inactive (`_active = false`), every
incoming terminal data chunk is discarded whole: `handleTermData`
returns immediately, so the input buffer, cursor, history, autocomplete
registry and any pending char prompt are unchanged, nothing is written,
and no pending promise — in particular a `readChar` issued without an
active `read()` — is resolved. -/
theorem inactive_data_discarded (tok : Str → List Str) (st : EngineState)
    (data : Str) (h : st.active = false) :
    handleTermData tok st data = some (st, []) := by
  simp [handleTermData, h]

/-- Concrete inactive engine state with a pending char prompt, used by
the C10 witness. -/
def inactiveCharState : EngineState :=
  { active := false, input := str "ab", cursor := 1,
    history := { size := 10, entries := [str "old"], cursor := 1 },
    maxAutocompleteEntries := 100, handlers := [],
    activePrompt := none, activeCharPrompt := some (str "(y or n)"),
    termCols := 80 }

/-- C10 witness: a concrete inactive state (even with a char prompt
pending) discards the chunk `"x"` unchanged. -/
theorem inactive_data_discarded_witness :
    handleTermData specParse inactiveCharState (str "x") =
      some (inactiveCharState, []) :=
  inactive_data_discarded specParse inactiveCharState (str "x") rfl

/-- C3 counterexample: a `readChar` issued while no line read is active
(`_active = false`) is NOT resolved by the next raw chunk — the claim's
"independently of whether a line read is in flight" fails.
`handleTermData` returns at the `!this._active` guard before the char
prompt is consulted: no `resolveChar` event is produced and the char
prompt stays pending. -/
def charNoReadState : EngineState :=
  { active := false, input := [], cursor := 0,
    history := { size := 10, entries := [], cursor := 0 },
    maxAutocompleteEntries := 100, handlers := [],
    activePrompt := none, activeCharPrompt := some (str "? "),
    termCols := 80 }

/-- See `charNoReadState`: the next chunk `"q"` leaves the pending char
prompt unresolved and the state untouched, refuting C3 as stated. -/
theorem readChar_not_resolved_when_inactive :
    handleTermData specParse charNoReadState (str "q") =
      some (charNoReadState, []) := by
  rfl

/-- C3 (amended): while the engine is active, a pending char prompt
intercepts the very next raw data chunk before any line-editing logic:
the promise is resolved with exactly that chunk, the char prompt is
cleared, a line break is written, and every other field (input, cursor,
history, handlers, line prompt) is untouched — independently of the
`ActivePrompt` value. -/
theorem charPrompt_intercepts_next_chunk (tok : Str → List Str)
    (st : EngineState) (p data : Str)
    (hA : st.active = true) (hC : st.activeCharPrompt = some p) :
    handleTermData tok st data =
      some ({ st with activeCharPrompt := none },
        [.resolveChar data, .write (str "\r\n")]) := by
  simp [handleTermData, hA, hC]

/-- Concrete active state with both a line read and a char prompt in
flight, used by the C3 witness. -/
def charDuringReadState : EngineState :=
  { active := true, input := str "echo", cursor := 4,
    history := { size := 10, entries := [], cursor := 0 },
    maxAutocompleteEntries := 100, handlers := [],
    activePrompt := some (str "$ ", str "> "),
    activeCharPrompt := some (str "(y or n)"),
    termCols := 80 }

/-- C3 witness: the concrete chunk `"y"` resolves the pending char
prompt of `charDuringReadState` and clears it. -/
theorem charPrompt_intercepts_next_chunk_witness :
    handleTermData specParse charDuringReadState (str "y") =
      some ({ charDuringReadState with activeCharPrompt := none },
        [.resolveChar (str "y"), .write (str "\r\n")]) :=
  charPrompt_intercepts_next_chunk specParse charDuringReadState
    (str "(y or n)") (str "y") rfl rfl

/-- C5: `push(entry)` is a no-op when the entry trims to empty or equals
the last stored entry; otherwise it appends, drops the oldest entry
exactly when the new length would exceed the capacity, and snaps the
browse cursor to the new length of `entries`. -/
theorem historyPush_spec (h : HistoryState) (entry : Str) :
    (jsTrim entry = [] → historyPush h entry = h) ∧
      (h.entries.getLast? = some entry → historyPush h entry = h) ∧
      (jsTrim entry ≠ [] → h.entries.getLast? ≠ some entry →
        (historyPush h entry).entries =
            (if h.size < h.entries.length + 1 then (h.entries ++ [entry]).drop 1
              else h.entries ++ [entry]) ∧
          (historyPush h entry).cursor = (historyPush h entry).entries.length ∧
          (historyPush h entry).size = h.size) := by
  refine ⟨fun he => ?_, fun hl => ?_, fun he hl => ?_⟩
  · simp [historyPush, he]
  · by_cases he : jsTrim entry = [] <;> simp [historyPush, he, hl]
  · simp only [historyPush, if_neg he, if_neg hl]
    simp

/-- Concrete full history buffer used by the C5 witness. -/
def fullHistory : HistoryState :=
  { size := 2, entries := [str "a", str "b"], cursor := 2 }

/-- C5 witness: pushing a fresh entry into the full capacity-2 buffer
evicts the oldest entry and snaps the cursor to the new length. -/
theorem historyPush_spec_witness :
    (historyPush fullHistory (str "c")).entries = [str "b", str "c"] ∧
      (historyPush fullHistory (str "c")).cursor = 2 := by
  have h := (historyPush_spec fullHistory (str "c")).2.2 (by decide) (by decide)
  refine ⟨?_, ?_⟩
  · rw [h.1]; decide
  · rw [h.2.1, h.1]; decide

/-- C4: for non-blank input, `isIncompleteInput` is true exactly when
the input has an odd number of single quotes, or an odd number of
double quotes, or the text after the last `||` / `|` / `&&` separator
trims to empty, or the input ends with a backslash not preceded to form
`\\`; blank (empty or whitespace-only) input is always complete. -/
theorem isIncompleteInput_spec (input : Str) :
    (jsTrim input = [] → isIncompleteInput input = false) ∧
      (jsTrim input ≠ [] →
        (isIncompleteInput input = true ↔
          (input.count '\'' % 2 = 1 ∨ input.count '"' % 2 = 1 ∨
            jsTrim (lastSegment input) = [] ∨
            (['\\'].isSuffixOf input = true ∧
              ['\\', '\\'].isSuffixOf input = false)))) := by
  refine ⟨fun hb => ?_, fun hb => ?_⟩
  · simp [isIncompleteInput, hb]
  · simp only [isIncompleteInput, if_neg hb]
    constructor
    · intro ht
      split_ifs at ht with h1 h2 h3
      · exact Or.inl (by omega)
      · exact Or.inr (Or.inl (by omega))
      · exact Or.inr (Or.inr (Or.inl h3))
      · rw [Bool.and_eq_true, Bool.not_eq_true'] at ht
        exact Or.inr (Or.inr (Or.inr ht))
    · intro hd
      split_ifs with h1 h2 h3
      · rfl
      · rfl
      · rfl
      · rcases hd with h | h | h | h
        · omega
        · omega
        · exact absurd h h3
        · rw [Bool.and_eq_true, Bool.not_eq_true']
          exact h

/-- C4 witness: the claim's "in particular" examples, obtained from
`isIncompleteInput_spec` at the concrete inputs: true on
`"echo 'hello"`, `"echo a &&"` and `"foo \"` (one trailing backslash);
false on `"echo hello"` and `"foo \\"` (two trailing backslashes). -/
theorem isIncompleteInput_spec_witness :
    isIncompleteInput (str "echo 'hello") = true ∧
      isIncompleteInput (str "echo a &&") = true ∧
      isIncompleteInput (str "foo \\") = true ∧
      isIncompleteInput (str "echo hello") = false ∧
      isIncompleteInput (str "foo \\\\") = false := by
  refine ⟨?_, ?_, ?_, ?_, ?_⟩
  · exact ((isIncompleteInput_spec (str "echo 'hello")).2 (by decide)).mpr
      (Or.inl (by decide))
  · exact ((isIncompleteInput_spec (str "echo a &&")).2 (by decide)).mpr
      (Or.inr (Or.inr (Or.inl (by decide))))
  · exact ((isIncompleteInput_spec (str "foo \\")).2 (by decide)).mpr
      (Or.inr (Or.inr (Or.inr ⟨by decide, by decide⟩)))
  · cases hb : isIncompleteInput (str "echo hello") with
    | false => rfl
    | true => exact absurd (((isIncompleteInput_spec (str "echo hello")).2
        (by decide)).mp hb) (by decide)
  · cases hb : isIncompleteInput (str "foo \\\\") with
    | false => rfl
    | true => exact absurd (((isIncompleteInput_spec (str "foo \\\\")).2
        (by decide)).mp hb) (by decide)

/-- The claim's reading of `hasTailingWhitespace`, following its words:
only "the last line of the input" (the text after the final newline)
may end in a space or tab immediately preceded by a non-backslash
character. -/
def lastLineTailingWhitespace (input : Str) : Bool :=
  match (input.reverse.takeWhile (fun c => c ≠ '\n')) with
  | w :: a :: _ => isSpTab w && decide (a ≠ '\\')
  | _ => false

/-- C7 counterexample: on `"a \nb"` the code returns true — the regex
`/[^\\][ \t]$/m` anchors `$` at the end of EVERY line, so the trailing
space of the first line `"a "` matches — while the claim's last-line
predicate is false (the last line `"b"` has no trailing whitespace). -/
theorem hasTailingWhitespace_not_last_line_only :
    hasTailingWhitespace (str "a \nb") = true ∧
      lastLineTailingWhitespace (str "a \nb") = false := by
  exact ⟨by decide, by decide⟩

/-- C7 (amended): `hasTailingWhitespace(input)` is true iff SOME line of
the input ends in a space or tab immediately preceded by a non-backslash
character: there is a position holding a non-backslash character, then a
space or tab, then a line end (end of string or a line terminator). -/
theorem hasTailingWhitespace_amended (input : Str) :
    hasTailingWhitespace input = true ↔
      ∃ pre a w suf, input = pre ++ a :: w :: suf ∧ a ≠ '\\' ∧
        isSpTab w = true ∧ atLineEnd suf = true := by
  induction input with
  | nil =>
      simp only [hasTailingWhitespace]
      constructor
      · intro h; exact absurd h (by simp)
      · rintro ⟨pre, a, w, suf, h, -, -, -⟩
        exact absurd (congrArg List.length h) (by simp; omega)
  | cons c cs ih =>
      cases cs with
      | nil =>
          simp only [hasTailingWhitespace]
          constructor
          · intro h; exact absurd h (by simp)
          · rintro ⟨pre, a, w, suf, h, -, -, -⟩
            exact absurd (congrArg List.length h) (by simp; omega)
      | cons b rest =>
          rw [hasTailingWhitespace, Bool.or_eq_true]
          constructor
          · rintro (h | h)
            · rw [Bool.and_eq_true, Bool.and_eq_true] at h
              exact ⟨[], c, b, rest, rfl, by simpa using h.1.1, h.1.2, h.2⟩
            · obtain ⟨pre, a, w, suf, heq, ha, hw, hs⟩ := ih.mp h
              exact ⟨c :: pre, a, w, suf, by rw [heq]; rfl, ha, hw, hs⟩
          · rintro ⟨pre, a, w, suf, heq, ha, hw, hs⟩
            cases pre with
            | nil =>
                simp only [List.nil_append, List.cons.injEq] at heq
                obtain ⟨h1, h2, h3⟩ := heq
                subst h1; subst h2; subst h3
                exact Or.inl (by simp [ha, hw, hs])
            | cons p ps =>
                simp only [List.cons_append, List.cons.injEq] at heq
                exact Or.inr (ih.mpr ⟨ps, a, w, suf, heq.2, ha, hw, hs⟩)

/-- Stepping the column/row walk once preserves dominance: walking the
same character with a smaller wrap width `m2 ≤ m1` keeps the row
strictly ahead, or the row equal and the column no smaller. -/
theorem otcrStep_mono (m1 m2 : Nat) (hm : m2 ≤ m1) (c : Char) (p q : Nat × Nat)
    (h : p.1 < q.1 ∨ (p.1 = q.1 ∧ p.2 ≤ q.2)) :
    (otcrStep m1 p c).1 < (otcrStep m2 q c).1 ∨
      ((otcrStep m1 p c).1 = (otcrStep m2 q c).1 ∧
        (otcrStep m1 p c).2 ≤ (otcrStep m2 q c).2) := by
  rcases p with ⟨pr, pc⟩
  rcases q with ⟨qr, qc⟩
  simp only [otcrStep]
  split_ifs <;> simp_all <;> omega

/-- Dominance is preserved along the whole walk. -/
theorem otcrFold_mono (m1 m2 : Nat) (hm : m2 ≤ m1) (l : Str) :
    ∀ p q : Nat × Nat, (p.1 < q.1 ∨ (p.1 = q.1 ∧ p.2 ≤ q.2)) →
      ((l.foldl (otcrStep m1) p).1 < (l.foldl (otcrStep m2) q).1 ∨
        ((l.foldl (otcrStep m1) p).1 = (l.foldl (otcrStep m2) q).1 ∧
          (l.foldl (otcrStep m1) p).2 ≤ (l.foldl (otcrStep m2) q).2)) := by
  induction l with
  | nil => intro p q h; simpa using h
  | cons c cs ih =>
      intro p q h
      simpa using ih (otcrStep m1 p c) (otcrStep m2 q c)
        (otcrStep_mono m1 m2 hm c p q h)

/-- C8: `countLines(s, maxCols)` is at least 1 for every string and
every positive width, and is monotonically non-decreasing as `maxCols`
decreases: for `0 < m2 ≤ m1`, `countLines s m2 ≥ countLines s m1`. -/
theorem countLines_pos_antitone :
    (∀ (s : Str) (m : Nat), 0 < m → 1 ≤ countLines s m) ∧
      (∀ (s : Str) (m1 m2 : Nat), 0 < m2 → m2 ≤ m1 →
        countLines s m1 ≤ countLines s m2) := by
  constructor
  · intro s m _
    exact Nat.succ_le_succ (Nat.zero_le _)
  · intro s m1 m2 _ hm
    have h := otcrFold_mono m1 m2 hm (s.take s.length) (0, 0) (0, 0)
      (Or.inr ⟨rfl, Nat.le_refl 0⟩)
    simp only [countLines, offsetToColRow]
    rcases h with h | h
    · omega
    · omega

/-- C8 witness: at the wrapped string `"hello"` the theorem gives
`1 ≤ countLines "hello" 3` and `countLines "hello" 4 ≤
countLines "hello" 2`. -/
theorem countLines_pos_antitone_witness :
    1 ≤ countLines (str "hello") 3 ∧
      countLines (str "hello") 4 ≤ countLines (str "hello") 2 :=
  ⟨countLines_pos_antitone.1 (str "hello") 3 (by decide),
    countLines_pos_antitone.2 (str "hello") 4 2 (by decide) (by decide)⟩

/-- The four public HistoryController operations, as browsed by the
engine (returned values discarded; only the state evolution matters for
the cursor invariant). -/
inductive HistOp where
  | push (entry : Str)
  | rewind
  | getPrev
  | getNext

/-- State evolution of one HistoryController operation. -/
def runHistOp (h : HistoryState) : HistOp → HistoryState
  | .push entry => historyPush h entry
  | .rewind => historyRewind h
  | .getPrev => (historyGetPrevious h).2
  | .getNext => (historyGetNext h).2

/-- Run a sequence of operations from a fresh HistoryController of the
given capacity (entries empty, cursor 0). -/
def runHistOps (size : Nat) (ops : List HistOp) : HistoryState :=
  ops.foldl runHistOp { size := size, entries := [], cursor := 0 }

/-- Every single operation preserves `cursor ≤ length entries`. -/
theorem runHistOp_cursor_le (h : HistoryState) (op : HistOp)
    (hc : h.cursor ≤ h.entries.length) :
    (runHistOp h op).cursor ≤ (runHistOp h op).entries.length := by
  cases op with
  | push entry =>
      simp only [runHistOp, historyPush]
      split_ifs <;> simp [hc]
  | rewind => simp [runHistOp, historyRewind]
  | getPrev =>
      simp only [runHistOp, historyGetPrevious]
      omega
  | getNext =>
      simp only [runHistOp, historyGetNext]
      omega

/-- The invariant holds along any prefix of the run. -/
theorem histFold_cursor_le (ops : List HistOp) :
    ∀ h : HistoryState, h.cursor ≤ h.entries.length →
      (ops.foldl runHistOp h).cursor ≤ (ops.foldl runHistOp h).entries.length := by
  induction ops with
  | nil => intro h hc; simpa using hc
  | cons op rest ih =>
      intro h hc
      simpa using ih (runHistOp h op) (runHistOp_cursor_le h op hc)

/-- C9: from a fresh HistoryController, any sequence of push / rewind /
getPrevious / getNext keeps the browse cursor within
`[0, length entries]`; `getPrevious` at cursor 0 leaves the state
entirely unchanged (so repeated calls are idempotent), and `getNext` at
cursor = length leaves the state unchanged and returns `undefined`
(`none`) at that past-the-end position. -/
theorem history_cursor_invariant :
    (∀ (size : Nat) (ops : List HistOp),
        (runHistOps size ops).cursor ≤ (runHistOps size ops).entries.length) ∧
      (∀ h : HistoryState, h.cursor = 0 → (historyGetPrevious h).2 = h) ∧
      (∀ h : HistoryState, h.cursor = h.entries.length →
        (historyGetNext h).2 = h ∧ (historyGetNext h).1 = none) := by
  refine ⟨fun size ops => ?_, fun h hc => ?_, fun h hc => ?_⟩
  · exact histFold_cursor_le ops { size := size, entries := [], cursor := 0 }
      (by simp)
  · rcases h with ⟨s, e, c⟩
    simp only at hc
    subst hc
    simp [historyGetPrevious]
  · constructor
    · rcases h with ⟨s, e, c⟩
      simp only at hc
      subst hc
      simp [historyGetNext]
    · simp only [historyGetNext]
      rw [List.get?_eq_none]
      omega

/-- C9 witness: a concrete run — push two entries into a fresh buffer of
capacity 3, browse back past the start and forward past the end — stays
within bounds, and the boundary idempotence laws hold at the concrete
states the claim describes. -/
theorem history_cursor_invariant_witness :
    (runHistOps 3 [.push (str "a"), .push (str "b"), .getPrev, .getPrev,
        .getPrev, .getNext, .getNext, .getNext]).cursor ≤
      (runHistOps 3 [.push (str "a"), .push (str "b"), .getPrev, .getPrev,
        .getPrev, .getNext, .getNext, .getNext]).entries.length ∧
      (historyGetPrevious { size := 3, entries := [str "a"], cursor := 0 }).2 =
        { size := 3, entries := [str "a"], cursor := 0 } ∧
      (historyGetNext { size := 3, entries := [str "a"], cursor := 1 }).2 =
        { size := 3, entries := [str "a"], cursor := 1 } ∧
      (historyGetNext { size := 3, entries := [str "a"], cursor := 1 }).1 = none := by
  refine ⟨history_cursor_invariant.1 3 _, history_cursor_invariant.2.1 _ rfl,
    (history_cursor_invariant.2.2 _ rfl).1, (history_cursor_invariant.2.2 _ rfl).2⟩

/-- With the engine active and no char prompt pending, a lone TAB chunk
reaches the TAB branch of `handleData` unchanged (it is 1 byte long, so
the paste expansion does not trigger). -/
theorem handleTermData_tab_dispatch (tok : Str → List Str) (st : EngineState)
    (hA : st.active = true) (hC : st.activeCharPrompt = none) :
    handleTermData tok st (str "\t") = handleTab tok st := by
  simp [handleTermData, handleData, hA, hC, str]

/-- State component of `setCursorFn`: only the cursor changes, clamped
to the input length. -/
theorem setCursorFn_fst (st : EngineState) (n : Nat) :
    (setCursorFn st n).1 =
      { st with cursor := if st.input.length < n then st.input.length else n } := rfl

/-- State component of `setInputFn`: the input is replaced and the
cursor clamped to it. -/
theorem setInputFn_fst (st : EngineState) (newInput : Str) (clear : Bool) :
    (setInputFn st newInput clear).1 =
      { st with
          input := newInput,
          cursor := if newInput.length < st.cursor then newInput.length else st.cursor } := rfl

/-- State component of `handleCursorInsert`: when the cursor respects
the input bounds, the data is spliced in at the cursor and the cursor
advances by its length (no clamping occurs). -/
theorem handleCursorInsert_fst (st : EngineState) (d : Str)
    (h : st.cursor ≤ st.input.length) :
    (handleCursorInsert st d).1 =
      { st with
          input := st.input.take st.cursor ++ d ++ st.input.drop st.cursor,
          cursor := st.cursor + d.length } := by
  have hlen : (st.input.take st.cursor ++ d ++ st.input.drop st.cursor).length
      = st.input.length + d.length := by
    simp only [List.length_append, List.length_take, List.length_drop]
    omega
  simp only [handleCursorInsert, setInputFn_fst, hlen]
  rw [if_neg (by omega)]

/-- `printWide` terminates — produces its event list — whenever at least
one grid column fits the cached terminal width. -/
theorem printWideEvents_isSome (items : List Str) (cols : Nat)
    (hne : items ≠ [])
    (hw : items.foldl (fun w item => max w item.length) 0 + 2 ≤ cols) :
    ∃ w, printWideEvents items 2 cols = some w := by
  simp only [printWideEvents, printWideLines]
  rw [if_neg (by simpa [List.length_eq_zero] using hne)]
  rw [if_neg (by omega)]
  rw [if_neg (by
    have h0 : 0 < items.foldl (fun w item => max w item.length) 0 + 2 := by omega
    have h1 := (Nat.one_le_div_iff h0).mpr hw
    omega)]
  exact ⟨_, rfl⟩

/-- C1 (amended): on TAB, with at least one handler registered, the
sorted collected candidates numbering between 2 and
`maxAutocompleteEntries`, a non-trivial shared fragment `s`, a cursor
within bounds, and a cached terminal width fitting at least one
candidate-grid column (`max candidate length + 2 ≤ termCols` — the
condition the claim omits; without it the candidate printing loops
forever, see `printWide_narrow_diverges`), the engine inserts at the
cursor exactly the portion of `s` beyond the current last token of the
input-up-to-cursor, prints the candidate list in wide format (the
`printWide` events appear inside the emitted event stream), and
restores the prompt display: the final state keeps the inserted input
with the cursor right after the insertion, still active. -/
theorem tabCompletion_sharedFragment
    (tok : Str → List Str) (st : EngineState) (cands : List Str) (s : Str)
    (hcands : cands = sortStrs (collectAutocompleteCandidates tok st.handlers
      (st.input.take st.cursor)))
    (hA : st.active = true) (hC : st.activeCharPrompt = none)
    (hH : 0 < st.handlers.length)
    (hcur : st.cursor ≤ st.input.length)
    (h2 : 2 ≤ cands.length)
    (hmax : cands.length ≤ st.maxAutocompleteEntries)
    (hS : getSharedFragment (st.input.take st.cursor) cands = some s)
    (hne : s ≠ [])
    (hwidth : cands.foldl (fun w item => max w item.length) 0 + 2 ≤ st.termCols) :
    ∃ st2 evs wideEvs,
      handleTermData tok st (str "\t") = some (st2, evs) ∧
      st2.input = st.input.take st.cursor ++
        s.drop (getLastToken tok (st.input.take st.cursor)).length ++
        st.input.drop st.cursor ∧
      st2.cursor = st.cursor +
        (s.drop (getLastToken tok (st.input.take st.cursor)).length).length ∧
      st2.active = true ∧
      printWideEvents cands 2 st.termCols = some wideEvs ∧
      wideEvs <:+: evs := by
  obtain ⟨w, hw⟩ := printWideEvents_isSome cands st.termCols
    (by intro h; rw [h] at h2; simp at h2) hwidth
  rw [handleTermData_tab_dispatch tok st hA hC]
  simp only [handleTab, if_pos hH, ← hcands]
  rw [if_neg (by omega), if_neg (by omega), if_pos hmax, hS]
  dsimp only
  rw [if_neg hne]
  simp only [printAndRestartPromptSync, setCursorFn_fst, handleCursorInsert_fst st _ hcur]
  rw [hw]
  simp only [Option.map_some']
  refine ⟨_, _, w, rfl, ?_, ?_, ?_, rfl, ?_⟩
  · simp [setInputFn_fst]
  · simp only [setInputFn_fst]
    rw [if_neg (by
      simp only [List.length_append, List.length_take, List.length_drop]
      omega)]
  · simp [setInputFn_fst, hA]
  · simp only [← List.append_assoc]
    exact List.infix_append _ _ _

/-- Concrete engine state for the C1 witness: input `"lo"`, cursor 2,
one handler offering `["load", "loadavg"]`, an 80-column terminal. -/
def tabWideState : EngineState :=
  { active := true, input := str "lo", cursor := 2,
    history := { size := 10, entries := [], cursor := 0 },
    maxAutocompleteEntries := 100,
    handlers := [fun _ _ => some [str "load", str "loadavg"]],
    activePrompt := some (str "$ ", str "> "),
    activeCharPrompt := none, termCols := 80 }

/-- C1 witness: at `tabWideState` the shared fragment is `"load"` and
TAB inserts `"ad"` (the portion beyond the last token `"lo"`), moving
the cursor to 4 and printing the two candidates wide. -/
theorem tabCompletion_sharedFragment_witness :
    ∃ st2 evs wideEvs,
      handleTermData specParse tabWideState (str "\t") = some (st2, evs) ∧
      st2.input = (str "lo").take 2 ++
        (str "load").drop (getLastToken specParse ((str "lo").take 2)).length ++
        (str "lo").drop 2 ∧
      st2.cursor = 2 +
        ((str "load").drop (getLastToken specParse ((str "lo").take 2)).length).length ∧
      st2.active = true ∧
      printWideEvents [str "load", str "loadavg"] 2 80 = some wideEvs ∧
      wideEvs <:+: evs :=
  tabCompletion_sharedFragment specParse tabWideState
    [str "load", str "loadavg"] (str "load") rfl rfl rfl (by decide) (by decide)
    (by decide) (by decide) rfl (by decide) (by decide)

/-- Concrete engine state refuting C1 as stated: identical to the
witness state but with the cached terminal width 0 (the constructor's
default when no terminal is attached). -/
def tabNarrowState : EngineState :=
  { active := true, input := str "lo", cursor := 2,
    history := { size := 10, entries := [], cursor := 0 },
    maxAutocompleteEntries := 100,
    handlers := [fun _ _ => some [str "load", str "loadavg"]],
    activePrompt := some (str "$ ", str "> "),
    activeCharPrompt := none, termCols := 0 }

/-- C1 counterexample: at `tabNarrowState` every condition of the claim
holds (one handler, two sorted candidates `["load", "loadavg"]`, shared
fragment `"load"` non-trivial), yet pressing TAB never prints the
candidate list nor restores the prompt: `printWide`'s row loop never
terminates on the 0-column cached width (`wideRows = Infinity`), so the
run produces no final state or events — `none` in this model. -/
theorem tabCompletion_narrow_never_returns :
    handleTermData specParse tabNarrowState (str "\t") = none := by
  rfl
